import Mathlib

/-
  Verification of the Gesture-Snake repository.

  Shallow embedding of the game logic in src/game.py (class SnakeGame),
  the pause-gesture debounce in src/snake_game.py (SnakeGameApp.run),
  and the position smoother in src/hand_tracker.py (HandTracker),
  together with proofs of the specified properties.

  Modelling notes:
  - Grid cells and pixel coordinates are Python ints, embedded as Int.
  - The deque holding the snake is embedded as a List with the head of
    the snake at index 0; appendleft is List.cons, pop is List.dropLast.
  - random.randint draws inside SnakeGame._spawn_food are embedded as an
    explicit list of candidate cells handed to the operation; the
    rejection-sampling loop returns the first candidate that is not on
    the snake, and the case in which no candidate is free (the loop not
    terminating) is Option.none.
  - Rendering, pygame, OpenCV and MediaPipe calls are I/O and are not
    part of the simulation state; speed_multiplier is a render/timing
    float never read back by the logic, so it is omitted from the state.
-/

namespace GestureSnake

/-- Snake movement directions: the Direction enum of src/game.py. -/
inductive Direction where
  | UP
  | DOWN
  | LEFT
  | RIGHT
  deriving DecidableEq, Repr

/-- The unit delta (dx, dy) each Direction enum member carries. -/
def Direction.value : Direction → Int × Int
  | .UP => (0, -1)
  | .DOWN => (0, 1)
  | .LEFT => (-1, 0)
  | .RIGHT => (1, 0)

/-- The exact reverse of a direction (UP/DOWN, LEFT/RIGHT swap). -/
def Direction.opposite : Direction → Direction
  | .UP => .DOWN
  | .DOWN => .UP
  | .LEFT => .RIGHT
  | .RIGHT => .LEFT

/-- The GameState enum of src/game.py. -/
inductive GameState where
  | MENU
  | PLAYING
  | PAUSED
  | GAME_OVER
  deriving DecidableEq, Repr

/-- GameConfig.WINDOW_WIDTH in src/config.py. -/
def WINDOW_WIDTH : Nat := 800

/-- GameConfig.WINDOW_HEIGHT in src/config.py. -/
def WINDOW_HEIGHT : Nat := 600

/-- GameConfig.GRID_SIZE in src/config.py. -/
def GRID_SIZE : Nat := 20

/-- GameConfig.FOOD_POINTS in src/config.py. -/
def FOOD_POINTS : Nat := 10

/-- GameConfig.DIRECTION_THRESHOLD in src/config.py (pixels). -/
def DIRECTION_THRESHOLD : Int := 30

/-- GameConfig.GESTURE_SMOOTHING_WINDOW in src/config.py. -/
def GESTURE_SMOOTHING_WINDOW : Nat := 5

/-- First component of GameConfig.get_grid_dimensions: WINDOW_WIDTH // GRID_SIZE. -/
def grid_cols : Nat := WINDOW_WIDTH / GRID_SIZE

/-- Second component of GameConfig.get_grid_dimensions: WINDOW_HEIGHT // GRID_SIZE. -/
def grid_rows : Nat := WINDOW_HEIGHT / GRID_SIZE

/-- A grid cell (col, row), a Python int pair. -/
abbrev Cell := Int × Int

/-- The mutable simulation state of class SnakeGame in src/game.py
(the pygame surface, clock and fonts are render-only and omitted). -/
structure SnakeGame where
  state : GameState
  score : Nat
  high_score : Nat
  frame_count : Nat
  snake : List Cell
  direction : Direction
  next_direction : Direction
  food : Cell
  deriving DecidableEq, Repr

/-- SnakeGame._spawn_food: rejection sampling over the candidate stream
rand (the successive random.randint draws); returns the first candidate
not occupied by the snake, none if the loop never terminates. -/
def spawn_food (snake : List Cell) (rand : List Cell) : Option Cell :=
  rand.find? (fun c => decide (c ∉ snake))

/-- SnakeGame.reset_game: 3-cell snake horizontally centered, head
rightmost, facing RIGHT; fresh food; score 0; state MENU.  Only the
high score survives from the previous state g. -/
def reset_game (g : SnakeGame) (rand : List Cell) : Option SnakeGame :=
  let start_x : Int := (grid_cols / 2 : Nat)
  let start_y : Int := (grid_rows / 2 : Nat)
  let snake : List Cell :=
    [(start_x, start_y), (start_x - 1, start_y), (start_x - 2, start_y)]
  match spawn_food snake rand with
  | none => none
  | some f =>
      some { state := GameState.MENU,
             score := 0, high_score := g.high_score,
             frame_count := 0, snake := snake, direction := Direction.RIGHT,
             next_direction := Direction.RIGHT, food := f }

/-- SnakeGame.start_game: MENU to PLAYING, otherwise no-op. -/
def start_game (g : SnakeGame) : SnakeGame :=
  if g.state = GameState.MENU then { g with state := GameState.PLAYING } else g

/-- SnakeGame.toggle_pause: PLAYING and PAUSED swap, otherwise no-op. -/
def toggle_pause (g : SnakeGame) : SnakeGame :=
  if g.state = GameState.PLAYING then { g with state := GameState.PAUSED }
  else if g.state = GameState.PAUSED then { g with state := GameState.PLAYING }
  else g

/-- SnakeGame.update_direction: derive the pending direction from the
hand position relative to the snake head's on-screen center. -/
def update_direction (g : SnakeGame) (hand_pos : Option (Int × Int)) : SnakeGame :=
  match hand_pos with
  | none => g
  | some hp =>
    match g.snake with
    | [] => g
    | head :: _ =>
      if g.state ≠ GameState.PLAYING then g
      else
        let head_screen : Int × Int :=
          (head.1 * (GRID_SIZE : Int) + ((GRID_SIZE / 2 : Nat) : Int),
           head.2 * (GRID_SIZE : Int) + ((GRID_SIZE / 2 : Nat) : Int))
        let dx := hp.1 - head_screen.1
        let dy := hp.2 - head_screen.2
        if |dx| > DIRECTION_THRESHOLD ∨ |dy| > DIRECTION_THRESHOLD then
          if |dx| > |dy| then
            { g with next_direction :=
                if dx > 0 then Direction.RIGHT else Direction.LEFT }
          else
            { g with next_direction :=
                if dy > 0 then Direction.DOWN else Direction.UP }
        else g

/-- SnakeGame._update_high_score (the file write is I/O, omitted). -/
def update_high_score (g : SnakeGame) : SnakeGame :=
  if g.score > g.high_score then { g with high_score := g.score } else g

/-- The 180-degree-turn filter at the top of SnakeGame.update (lines
144-147): commit the pending direction unless it is the exact reverse
of the committed one. -/
def commit_direction (g : SnakeGame) : SnakeGame :=
  if (g.next_direction.value.1 * -1, g.next_direction.value.2 * -1)
      ≠ g.direction.value then
    { g with direction := g.next_direction }
  else g

/-- The movement part of SnakeGame.update (lines 150-179): compute the
new head, detect wall and self collision, otherwise move and possibly
eat.  rand feeds the food respawn; none models the respawn loop not
terminating (or indexing an empty deque). -/
def move_phase (g : SnakeGame) (rand : List Cell) : Option SnakeGame :=
  match g.snake with
  | [] => none
  | head :: _ =>
    let new_head : Cell :=
      (head.1 + g.direction.value.1, head.2 + g.direction.value.2)
    if new_head.1 < 0 ∨ new_head.1 ≥ (grid_cols : Int)
        ∨ new_head.2 < 0 ∨ new_head.2 ≥ (grid_rows : Int) then
      some (update_high_score { g with state := GameState.GAME_OVER })
    else if new_head ∈ g.snake then
      some (update_high_score { g with state := GameState.GAME_OVER })
    else
      let snake2 := new_head :: g.snake
      if new_head = g.food then
        match spawn_food snake2 rand with
        | none => none
        | some f =>
            some { g with
                   snake := snake2,
                   score := g.score + FOOD_POINTS, food := f }
      else
        some { g with snake := snake2.dropLast }

/-- SnakeGame.update: one simulation tick.  A no-op outside PLAYING;
otherwise the frame counter increments, the pending direction is
committed through the reversal filter, and the snake moves. -/
def update (g : SnakeGame) (rand : List Cell) : Option SnakeGame :=
  if g.state ≠ GameState.PLAYING then some g
  else move_phase (commit_direction { g with frame_count := g.frame_count + 1 }) rand

/-- The commands a driver can issue between resets: start_game,
toggle_pause, update_direction (the setDirectionIntent path) and
update (one step(), with its random draws). -/
inductive Cmd where
  | start
  | togglePause
  | setDir (hand_pos : Int × Int)
  | step (rand : List Cell)

/-- Apply one command to the game state. -/
def applyCmd (g : SnakeGame) : Cmd → Option SnakeGame
  | .start => some (start_game g)
  | .togglePause => some (toggle_pause g)
  | .setDir hp => some (update_direction g (some hp))
  | .step rand => update g rand

/-- States reachable from some reset_game by any command sequence. -/
inductive Reachable : SnakeGame → Prop where
  | reset (g0 : SnakeGame) (rand : List Cell) (g : SnakeGame) :
      reset_game g0 rand = some g → Reachable g
  | cmd (g : SnakeGame) (c : Cmd) (g2 : SnakeGame) :
      Reachable g → applyCmd g c = some g2 → Reachable g2

/-- Iterate update over a list of per-step random draws. -/
def stepN (g : SnakeGame) : List (List Cell) → Option SnakeGame
  | [] => some g
  | r :: rs =>
    match update g r with
    | none => none
    | some g2 => stepN g2 rs

/-- One tick of the pause-gesture handling in SnakeGameApp.run
(src/snake_game.py lines 51-57): given the current cooldown and the
fist flag, returns the cooldown after the tick and whether
toggle_pause was invoked on this tick. -/
def pause_tick (cooldown : Int) (is_fist : Bool) : Int × Bool :=
  let r := if is_fist ∧ cooldown ≤ 0 then ((30 : Int), true) else (cooldown, false)
  let cd := if r.1 > 0 then r.1 - 1 else r.1
  (cd, r.2)

/-- Run the pause-gesture handling over a list of per-tick fist flags,
returning the per-tick toggle_pause invocation flags. -/
def run_debounce (cooldown : Int) : List Bool → List Bool
  | [] => []
  | f :: fs =>
    let r := pause_tick cooldown f
    r.2 :: run_debounce r.1 fs

/-- The 1-based tick indices at which toggle_pause is invoked when the
app (initial cooldown 0) sees the given fist flags. -/
def toggle_ticks (flags : List Bool) : List Nat :=
  ((List.range flags.length).zip (run_debounce 0 flags)).filterMap
    (fun p => if p.2 then some (p.1 + 1) else none)

/-- HandTracker position history push: the deque with
maxlen GESTURE_SMOOTHING_WINDOW appends on the right and evicts on the
left when full.  Pixel coordinates are clamped non-negative in
HandTracker.detect_hand, hence Nat components. -/
def push_position (h : List (Nat × Nat)) (p : Nat × Nat) : List (Nat × Nat) :=
  let h2 := h ++ [p]
  h2.drop (h2.length - GESTURE_SMOOTHING_WINDOW)

/-- HandTracker.get_smoothed_position: component-wise mean of the
history, truncated to integer pixels (int() of a non-negative float is
the floor, i.e. Nat division); none when the history is empty. -/
def get_smoothed_position (h : List (Nat × Nat)) : Option (Nat × Nat) :=
  if h = [] then none
  else some ((h.map Prod.fst).sum / h.length, (h.map Prod.snd).sum / h.length)

/-- Modelled from the spec, for comparison with get_smoothed_position:
the at-most-capacity most recent pushed positions out of a pushed
sequence ps. -/
def spec_last_window (ps : List (Nat × Nat)) : List (Nat × Nat) :=
  ps.drop (ps.length - GESTURE_SMOOTHING_WINDOW)

/-- Modelled from the spec, for comparison with get_smoothed_position:
component-wise arithmetic mean truncated to integers. -/
def spec_mean (l : List (Nat × Nat)) : Nat × Nat :=
  ((l.map Prod.fst).sum / l.length, (l.map Prod.snd).sum / l.length)

/-- The snake occupying cells (x, 15) down to (x - n + 1, 15), head
first: the shape of the snake during a straight run to the right along
the central row. -/
def hseg (x : Int) (n : Nat) : List Cell :=
  (List.range n).map (fun (i : Nat) => (x - (i : Int), 15))

/-- Invariant of the straight rightward run of C4 after k steps: still
PLAYING, both directions RIGHT, and the snake a leftward segment with
head at column 20 + k. -/
def InvR (k : Nat) (g : SnakeGame) : Prop :=
  g.state = GameState.PLAYING ∧ g.direction = Direction.RIGHT ∧
  g.next_direction = Direction.RIGHT ∧
  ∃ len : Nat, 3 ≤ len ∧ len ≤ k + 3 ∧ g.snake = hseg (20 + (k : Int)) len

/-- The reachability invariant shared by C2 and C10: the food is off
the snake, the snake has at least its 3 spawn cells, and the score is
FOOD_POINTS per cell grown since reset. -/
def GoodState (g : SnakeGame) : Prop :=
  g.food ∉ g.snake ∧ 3 ≤ g.snake.length ∧
  g.score = FOOD_POINTS * (g.snake.length - 3)

/-! ### Concrete fixture states used by the witnesses -/

/-- An arbitrary pre-reset state. -/
def gA : SnakeGame :=
  { state := GameState.MENU, score := 0, high_score := 0, frame_count := 0,
    snake := [], direction := Direction.RIGHT, next_direction := Direction.RIGHT,
    food := (0, 0) }

/-- The result of reset_game gA with candidate stream [(0, 0)]. -/
def gI : SnakeGame :=
  { state := GameState.MENU, score := 0, high_score := 0, frame_count := 0,
    snake := [(20, 15), (19, 15), (18, 15)], direction := Direction.RIGHT,
    next_direction := Direction.RIGHT, food := (0, 0) }

/-- gI with the game started. -/
def gP : SnakeGame := { gI with state := GameState.PLAYING }

/-- The result of one step from gP. -/
def gP2 : SnakeGame :=
  { state := GameState.PLAYING, score := 0, high_score := 0, frame_count := 1,
    snake := [(21, 15), (20, 15), (19, 15)], direction := Direction.RIGHT,
    next_direction := Direction.RIGHT, food := (0, 0) }

/-- The result of one step from gP after recording the reversal intent
LEFT: the reversal is dropped, the snake still moves RIGHT. -/
def gP3 : SnakeGame := { gP2 with next_direction := Direction.LEFT }

/-- A PLAYING state one step short of the right wall, with a score that
beats the stored high score. -/
def gW : SnakeGame :=
  { state := GameState.PLAYING, score := 50, high_score := 20, frame_count := 0,
    snake := [(39, 15), (38, 15), (37, 15)], direction := Direction.RIGHT,
    next_direction := Direction.RIGHT, food := (5, 5) }

/-- The result of one step from gW: the wall collision. -/
def gW2 : SnakeGame :=
  { state := GameState.GAME_OVER, score := 50, high_score := 50, frame_count := 1,
    snake := [(39, 15), (38, 15), (37, 15)], direction := Direction.RIGHT,
    next_direction := Direction.RIGHT, food := (5, 5) }

/-- gI fallen into GAME_OVER. -/
def gO : SnakeGame := { gI with state := GameState.GAME_OVER }

/-- The state after the 20-step straight run from gI: the wall hit. -/
def gF : SnakeGame :=
  { state := GameState.GAME_OVER, score := 0, high_score := 0, frame_count := 20,
    snake := [(39, 15), (38, 15), (37, 15)], direction := Direction.RIGHT,
    next_direction := Direction.RIGHT, food := (0, 0) }

/-! ### Helper lemmas about the operations -/

theorem spawn_food_not_mem (snake rand : List Cell) (f : Cell)
    (h : spawn_food snake rand = some f) : f ∉ snake := by
  unfold spawn_food at h
  have h2 := List.find?_some h
  simpa using h2

theorem update_high_score_fields (g : SnakeGame) :
    (update_high_score g).state = g.state ∧
    (update_high_score g).score = g.score ∧
    (update_high_score g).snake = g.snake ∧
    (update_high_score g).food = g.food ∧
    (update_high_score g).direction = g.direction ∧
    (update_high_score g).next_direction = g.next_direction := by
  unfold update_high_score
  split <;> exact ⟨rfl, rfl, rfl, rfl, rfl, rfl⟩

theorem update_high_score_high (g : SnakeGame) :
    (update_high_score g).high_score = max g.score g.high_score := by
  unfold update_high_score
  split <;> simp <;> omega

theorem commit_direction_fields (g : SnakeGame) :
    (commit_direction g).state = g.state ∧
    (commit_direction g).score = g.score ∧
    (commit_direction g).high_score = g.high_score ∧
    (commit_direction g).snake = g.snake ∧
    (commit_direction g).food = g.food ∧
    (commit_direction g).next_direction = g.next_direction := by
  unfold commit_direction
  split <;> exact ⟨rfl, rfl, rfl, rfl, rfl, rfl⟩

/-- update_direction only ever writes the pending direction (structure
eta covers the branches that return g unchanged). -/
theorem update_direction_shape (g : SnakeGame) (hp : Option (Int × Int)) :
    ∃ d, update_direction g hp = { g with next_direction := d } := by
  obtain ⟨st, sc, hsc, fc, sn, di, nd, fo⟩ := g
  unfold update_direction
  cases hp with
  | none => exact ⟨nd, rfl⟩
  | some p =>
    cases sn with
    | nil => exact ⟨nd, rfl⟩
    | cons hd tl =>
      simp only
      split
      · exact ⟨nd, rfl⟩
      · split
        · split
          · exact ⟨_, rfl⟩
          · exact ⟨_, rfl⟩
        · exact ⟨nd, rfl⟩

theorem update_direction_fields (g : SnakeGame) (hp : Option (Int × Int)) :
    (update_direction g hp).state = g.state ∧
    (update_direction g hp).score = g.score ∧
    (update_direction g hp).high_score = g.high_score ∧
    (update_direction g hp).snake = g.snake ∧
    (update_direction g hp).food = g.food ∧
    (update_direction g hp).direction = g.direction := by
  obtain ⟨d, hd⟩ := update_direction_shape g hp
  rw [hd]
  exact ⟨rfl, rfl, rfl, rfl, rfl, rfl⟩

theorem start_game_fields (g : SnakeGame) :
    (start_game g).score = g.score ∧
    (start_game g).high_score = g.high_score ∧
    (start_game g).snake = g.snake ∧
    (start_game g).food = g.food ∧
    (start_game g).direction = g.direction ∧
    (start_game g).next_direction = g.next_direction := by
  unfold start_game
  split <;> exact ⟨rfl, rfl, rfl, rfl, rfl, rfl⟩

theorem toggle_pause_fields (g : SnakeGame) :
    (toggle_pause g).score = g.score ∧
    (toggle_pause g).high_score = g.high_score ∧
    (toggle_pause g).snake = g.snake ∧
    (toggle_pause g).food = g.food ∧
    (toggle_pause g).direction = g.direction ∧
    (toggle_pause g).next_direction = g.next_direction := by
  unfold toggle_pause
  split
  · exact ⟨rfl, rfl, rfl, rfl, rfl, rfl⟩
  · split <;> exact ⟨rfl, rfl, rfl, rfl, rfl, rfl⟩

theorem update_some (g g2 : SnakeGame) (rand : List Cell)
    (hst : g.state = GameState.PLAYING) (h : update g rand = some g2) :
    move_phase (commit_direction { g with frame_count := g.frame_count + 1 }) rand
      = some g2 := by
  unfold update at h
  rwa [if_neg (by simp [hst])] at h

/-- Exhaustive outcome analysis of one movement phase. -/
theorem move_phase_main (g g2 : SnakeGame) (rand : List Cell)
    (h : move_phase g rand = some g2) :
    g2.direction = g.direction ∧ g2.next_direction = g.next_direction ∧
    ((g2.state = GameState.GAME_OVER ∧ g2.snake = g.snake ∧ g2.food = g.food ∧
        g2.score = g.score ∧ g2.high_score = max g.score g.high_score)
     ∨ (g2.state = g.state ∧ g2.high_score = g.high_score ∧
         ((g2.score = g.score ∧ g2.snake.length = g.snake.length ∧ g2.food = g.food ∧
             (g.food ∉ g.snake → g2.food ∉ g2.snake))
          ∨ (g2.score = g.score + FOOD_POINTS ∧
              g2.snake.length = g.snake.length + 1 ∧ g2.food ∉ g2.snake)))) := by
  obtain ⟨st, sc, hsc, fc, sn, di, nd, fo⟩ := g
  unfold move_phase at h
  cases sn with
  | nil => exact absurd h (by simp)
  | cons hd tl =>
    simp only at h
    split at h
    · -- wall collision
      injection h with h7
      subst h7
      obtain ⟨h1, h2, h3, h4, h5, h6⟩ := update_high_score_fields
        { state := GameState.GAME_OVER, score := sc, high_score := hsc,
          frame_count := fc, snake := hd :: tl, direction := di,
          next_direction := nd, food := fo }
      exact ⟨h5, h6, Or.inl ⟨h1, h3, h4, h2, update_high_score_high _⟩⟩
    · split at h
      · -- self collision
        injection h with h7
        subst h7
        obtain ⟨h1, h2, h3, h4, h5, h6⟩ := update_high_score_fields
          { state := GameState.GAME_OVER, score := sc, high_score := hsc,
            frame_count := fc, snake := hd :: tl, direction := di,
            next_direction := nd, food := fo }
        exact ⟨h5, h6, Or.inl ⟨h1, h3, h4, h2, update_high_score_high _⟩⟩
      · split at h
        · -- food eaten
          rename_i hnw hself heat
          cases hsp : spawn_food ((hd.1 + di.value.1, hd.2 + di.value.2)
              :: (hd :: tl)) rand with
          | none => rw [hsp] at h; exact absurd h (by simp)
          | some f =>
            rw [hsp] at h
            injection h with h7
            subst h7
            exact ⟨rfl, rfl, Or.inr ⟨rfl, rfl, Or.inr
              ⟨rfl, by simp, spawn_food_not_mem _ _ _ hsp⟩⟩⟩
        · -- plain move
          rename_i hnw hself heat
          injection h with h7
          subst h7
          refine ⟨rfl, rfl, Or.inr ⟨rfl, rfl, Or.inl ⟨rfl, by simp, rfl, ?_⟩⟩⟩
          intro hfood hmem
          have hsub := List.dropLast_sublist
            ((hd.1 + di.value.1, hd.2 + di.value.2) :: hd :: tl)
          have hmem2 := hsub.mem hmem
          rcases List.mem_cons.mp hmem2 with heq | hmem3
          · exact heat heq.symm
          · exact hfood hmem3

theorem update_direction_not_playing (g : SnakeGame) (hp : Option (Int × Int))
    (hst : g.state ≠ GameState.PLAYING) : update_direction g hp = g := by
  obtain ⟨st, sc, hsc, fc, sn, di, nd, fo⟩ := g
  unfold update_direction
  cases hp with
  | none => rfl
  | some p =>
    cases sn with
    | nil => rfl
    | cons hd tl => simp only [if_pos hst]

/-! ### C3: exact reversals are silently dropped -/

/-- C3: for every committed direction d and every proposed intent i that
is the exact opposite of d, recording i as the pending direction and
then performing one step() in the PLAYING state leaves the committed
direction equal to d. -/
theorem C3_reversal_ignored (g g2 : SnakeGame) (i : Direction) (rand : List Cell)
    (hst : g.state = GameState.PLAYING)
    (hop : i = g.direction.opposite)
    (hstep : update { g with next_direction := i } rand = some g2) :
    g2.direction = g.direction := by
  have hmv := update_some _ _ _ (by simpa using hst) hstep
  have hval : (i.value.1 * -1, i.value.2 * -1) = g.direction.value := by
    subst hop
    cases g.direction <;> decide
  have hcm : commit_direction
        { g with next_direction := i, frame_count := g.frame_count + 1 }
      = { g with next_direction := i, frame_count := g.frame_count + 1 } := by
    unfold commit_direction
    exact if_neg (not_not_intro hval)
  have hmv2 : move_phase
      { g with next_direction := i, frame_count := g.frame_count + 1 } rand
        = some g2 := by
    rw [← hcm]
    exact hmv
  exact (move_phase_main _ _ _ hmv2).1

/-! ### C6: snake length changes by 0 or exactly 1 per PLAYING step -/

/-- C6: for every step() executed in the PLAYING state, either no food
was eaten and the length is unchanged (including collision ticks), or
food was eaten, the score rose by FOOD_POINTS, and the length grew by
exactly 1. -/
theorem C6_length_change (g g2 : SnakeGame) (rand : List Cell)
    (hst : g.state = GameState.PLAYING) (hstep : update g rand = some g2) :
    (g2.score = g.score ∧ g2.snake.length = g.snake.length)
    ∨ (g2.score = g.score + FOOD_POINTS
        ∧ g2.snake.length = g.snake.length + 1) := by
  have hmv := update_some _ _ _ hst hstep
  obtain ⟨-, hcsc, -, hcsn, -, -⟩ :=
    commit_direction_fields { g with frame_count := g.frame_count + 1 }
  have h1 : (commit_direction { g with frame_count := g.frame_count + 1 }).score
      = g.score := hcsc
  have h2 : (commit_direction { g with frame_count := g.frame_count + 1 }).snake
      = g.snake := hcsn
  rcases move_phase_main _ _ _ hmv with
    ⟨-, -, ⟨-, hsn, -, hsc, -⟩ | ⟨-, -, ⟨hsc, hlen, -, -⟩ | ⟨hsc, hlen, -⟩⟩⟩
  · left
    rw [hsc, h1, hsn, h2]
    exact ⟨rfl, rfl⟩
  · left
    rw [hsc, h1, hlen, h2]
    exact ⟨rfl, rfl⟩
  · right
    rw [hsc, h1, hlen, h2]
    exact ⟨rfl, rfl⟩

/-! ### C8: the high score is max(S, H) at game over and never decreases -/

/-- C8: a game-over transition out of PLAYING sets the in-memory high
score to max(final score, prior high score); and no operation, reset
included, ever decreases the high score. -/
theorem C8_high_score (g : SnakeGame) :
    (∀ (rand : List Cell) (g2 : SnakeGame), g.state = GameState.PLAYING →
        update g rand = some g2 → g2.state = GameState.GAME_OVER →
        g2.high_score = max g.score g.high_score)
    ∧ (∀ (c : Cmd) (g2 : SnakeGame), applyCmd g c = some g2 →
        g.high_score ≤ g2.high_score)
    ∧ (∀ (rand : List Cell) (g2 : SnakeGame), reset_game g rand = some g2 →
        g.high_score ≤ g2.high_score) := by
  have hplay : ∀ (rand : List Cell) (g2 : SnakeGame),
      g.state = GameState.PLAYING → update g rand = some g2 →
      (g2.state = GameState.GAME_OVER → g2.high_score = max g.score g.high_score)
      ∧ g.high_score ≤ g2.high_score := by
    intro rand g2 hst hstep
    have hmv := update_some _ _ _ hst hstep
    obtain ⟨hcst, hcsc, hch, -, -, -⟩ :=
      commit_direction_fields { g with frame_count := g.frame_count + 1 }
    have h1 : (commit_direction { g with frame_count := g.frame_count + 1 }).score
        = g.score := hcsc
    have h2 : (commit_direction { g with frame_count := g.frame_count + 1 }).high_score
        = g.high_score := hch
    have h3 : (commit_direction { g with frame_count := g.frame_count + 1 }).state
        = g.state := hcst
    rcases move_phase_main _ _ _ hmv with
      ⟨-, -, ⟨-, -, -, -, hhigh⟩ | ⟨hstate, hhigh, -⟩⟩
    · rw [hhigh, h1, h2]
      exact ⟨fun _ => rfl, le_max_right _ _⟩
    · rw [hstate, h3, hst]
      refine ⟨fun hcontra => absurd hcontra (by simp), ?_⟩
      rw [hhigh, h2]
  refine ⟨fun rand g2 hst hstep hover => ((hplay rand g2 hst hstep).1 hover), ?_, ?_⟩
  · intro c g2 hap
    cases c with
    | start =>
      injection hap with h7
      rw [← h7, (start_game_fields g).2.1]
    | togglePause =>
      injection hap with h7
      rw [← h7, (toggle_pause_fields g).2.1]
    | setDir hp =>
      injection hap with h7
      rw [← h7, (update_direction_fields g (some hp)).2.2.1]
    | step rand =>
      by_cases hst : g.state = GameState.PLAYING
      · exact (hplay rand g2 hst hap).2
      · have hap2 : update g rand = some g2 := hap
        have hg : update g rand = some g := by simp [update, hst]
        rw [hg] at hap2
        injection hap2 with h7
        rw [h7]
  · intro rand g2 hres
    simp only [reset_game] at hres
    split at hres
    · exact absurd hres (by simp)
    · injection hres with h7
      rw [← h7]

/-! ### C9: GAME_OVER is absorbing; step() outside PLAYING is a no-op -/

/-- C9: in GAME_OVER every command other than reset leaves the entire
state unchanged; step() in any state other than PLAYING changes no
simulation state; and reset is the only exit, to MENU. -/
theorem C9_game_over_absorbing (g : SnakeGame) :
    (g.state = GameState.GAME_OVER → ∀ c, applyCmd g c = some g)
    ∧ (g.state ≠ GameState.PLAYING → ∀ rand : List Cell, update g rand = some g)
    ∧ (∀ (rand : List Cell) (g2 : SnakeGame), reset_game g rand = some g2 →
        g2.state = GameState.MENU) := by
  refine ⟨?_, ?_, ?_⟩
  · intro hst c
    cases c with
    | start => simp [applyCmd, start_game, hst]
    | togglePause => simp [applyCmd, toggle_pause, hst]
    | setDir hp =>
      simp [applyCmd, update_direction_not_playing g (some hp) (by simp [hst])]
    | step rand => simp [applyCmd, update, hst]
  · intro hst rand
    simp [update, hst]
  · intro rand g2 hres
    simp only [reset_game] at hres
    split at hres
    · exact absurd hres (by simp)
    · injection hres with h7
      rw [← h7]

/-- C9 witness: in gO (a GAME_OVER state) the start command returns the
state unchanged. -/
theorem C9_witness : applyCmd gO Cmd.start = some gO :=
  (C9_game_over_absorbing gO).1 rfl Cmd.start

/-- C3 witness: from the PLAYING state gP (committed direction RIGHT),
recording the reversal intent LEFT and stepping leaves the committed
direction RIGHT. -/
theorem C3_witness : gP3.direction = gP.direction :=
  C3_reversal_ignored gP gP3 Direction.LEFT [] rfl rfl (by decide)

/-- C6 witness: the concrete step from gP to gP2 eats nothing and keeps
the length at 3. -/
theorem C6_witness :
    (gP2.score = gP.score ∧ gP2.snake.length = gP.snake.length)
    ∨ (gP2.score = gP.score + FOOD_POINTS
        ∧ gP2.snake.length = gP.snake.length + 1) :=
  C6_length_change gP gP2 [] rfl (by decide)

/-- C8 witness: the wall collision from gW (score 50, stored high score
20) stores max(50, 20). -/
theorem C8_witness : gW2.high_score = max gW.score gW.high_score :=
  (C8_high_score gW).1 [] gW2 rfl (by decide) rfl

/-! ### C5: direction intent from the dominant axis of the delta -/

/-- C5: with threshold T, a hand position whose delta (dx, dy) from the
snake head's on-screen center has max(abs dx, abs dy) at most T
produces no intent (the state is unchanged); otherwise exactly one
intent is produced by the dominant axis: RIGHT/LEFT by the sign of dx
when abs dx exceeds abs dy, else DOWN/UP by the sign of dy, an exact
tie resolving to the vertical axis. -/
theorem C5_direction_translator (g : SnakeGame) (p : Int × Int) (hd : Cell)
    (tl : List Cell) (dx dy : Int)
    (hst : g.state = GameState.PLAYING) (hsn : g.snake = hd :: tl)
    (hdx : dx = p.1 - (hd.1 * (GRID_SIZE : Int) + ((GRID_SIZE / 2 : Nat) : Int)))
    (hdy : dy = p.2 - (hd.2 * (GRID_SIZE : Int) + ((GRID_SIZE / 2 : Nat) : Int))) :
    (max |dx| |dy| ≤ DIRECTION_THRESHOLD → update_direction g (some p) = g)
    ∧ (DIRECTION_THRESHOLD < max |dx| |dy| →
        update_direction g (some p)
          = { g with next_direction :=
              if |dx| > |dy| then
                (if dx > 0 then Direction.RIGHT else Direction.LEFT)
              else
                (if dy > 0 then Direction.DOWN else Direction.UP) }) := by
  obtain ⟨st, sc, hsc, fc, sn, di, nd, fo⟩ := g
  subst hsn hst hdx hdy
  constructor
  · intro hle
    obtain ⟨ha, hb⟩ := max_le_iff.mp hle
    unfold update_direction
    simp only
    rw [if_neg (by simp)]
    rw [if_neg (by simp only [gt_iff_lt, not_or, not_lt]; exact ⟨ha, hb⟩)]
  · intro hlt
    have h1 := lt_max_iff.mp hlt
    unfold update_direction
    simp only
    rw [if_neg (by simp)]
    rw [if_pos (by simpa [gt_iff_lt] using h1)]
    split_ifs <;> rfl

/-- C5 witness: from gP (head cell (20, 15), on-screen center
(410, 310)), the hand position (631, 310) has delta (221, 0) and sets
the pending direction RIGHT. -/
theorem C5_witness : (update_direction gP (some (631, 310))).next_direction
    = Direction.RIGHT := by
  have h := (C5_direction_translator gP (631, 310) (20, 15) [(19, 15), (18, 15)]
      221 0 rfl rfl (by decide) (by decide)).2 (by decide)
  rw [h]
  decide

/-! ### C1: pause-gesture debounce -/

/-- C1 counterexample: 100 consecutive ticks of the fist flag, starting
from cooldown 0, do not produce toggles exactly at ticks 1, 31, 61 (a
fourth toggle occurs at tick 91). -/
theorem C1_counterexample :
    ¬ toggle_ticks (List.replicate 100 true) = [1, 31, 61] := by decide

theorem pause_tick_true_zero : pause_tick 0 true = (29, true) := by decide

theorem pause_tick_true_pos (c : Nat) (hc : 1 ≤ c) :
    pause_tick (c : Int) true = (((c - 1 : Nat) : Int), false) := by
  unfold pause_tick
  split
  · rename_i h
    exfalso
    obtain ⟨-, h2⟩ := h
    omega
  · simp only
    split
    · simp only [Prod.mk.injEq]
      exact ⟨by omega, trivial⟩
    · rename_i h2
      exfalso
      omega

theorem run_debounce_all_true (n : Nat) :
    ∀ c : Nat, c ≤ 29 →
      run_debounce (c : Int) (List.replicate n true)
        = (List.range n).map (fun k => decide ((k + (30 - c)) % 30 = 0)) := by
  induction n with
  | zero => intro c hc; simp [run_debounce]
  | succ n ih =>
    intro c hc
    rw [List.replicate_succ, List.range_succ_eq_map, List.map_cons, List.map_map]
    show (pause_tick (c : Int) true).2
        :: run_debounce (pause_tick (c : Int) true).1 (List.replicate n true) = _
    by_cases h0 : c = 0
    · subst h0
      rw [show ((0 : Nat) : Int) = (0 : Int) by norm_num, pause_tick_true_zero]
      have h29 := ih 29 (by omega)
      rw [show ((29 : Nat) : Int) = (29 : Int) by norm_num] at h29
      show true :: run_debounce 29 (List.replicate n true) = _
      rw [h29]
      refine congrArg₂ List.cons (by decide) ?_
      refine List.map_congr_left ?_
      intro k _
      simp only [Function.comp]
      rw [decide_eq_decide]
      omega
    · have hc1 : 1 ≤ c := by omega
      rw [pause_tick_true_pos c hc1]
      have hih := ih (c - 1) (by omega)
      show false :: run_debounce ((c - 1 : Nat) : Int) (List.replicate n true) = _
      rw [hih]
      refine congrArg₂ List.cons ?_ ?_
      · symm
        rw [decide_eq_false_iff_not]
        omega
      · refine List.map_congr_left ?_
        intro k _
        simp only [Function.comp]
        rw [decide_eq_decide]
        omega

/-- C1 (amended): holding the fist flag true for n consecutive ticks
from cooldown 0 invokes toggle_pause exactly on ticks 1, 31, 61, ...
(one per 30-tick cooldown window); in particular 100 consecutive ticks
produce exactly 4 toggles, at ticks 1, 31, 61, 91. -/
theorem C1_debounce_amended :
    (∀ n : Nat, run_debounce 0 (List.replicate n true)
        = (List.range n).map (fun k => decide (k % 30 = 0)))
    ∧ toggle_ticks (List.replicate 100 true) = [1, 31, 61, 91] := by
  constructor
  · intro n
    have h := run_debounce_all_true n 0 (by omega)
    rw [show ((0 : Nat) : Int) = (0 : Int) by norm_num] at h
    rw [h]
    refine List.map_congr_left ?_
    intro k _
    rw [decide_eq_decide]
    omega
  · decide

/-! ### C7: the position smoother -/

theorem foldl_push_position (ps : List (Nat × Nat)) :
    ∀ h : List (Nat × Nat), h.length ≤ 5 →
      List.foldl push_position h ps = (h ++ ps).drop ((h.length + ps.length) - 5) := by
  induction ps with
  | nil =>
    intro h hh
    simp only [List.foldl_nil, List.append_nil, List.length_nil, Nat.add_zero]
    rw [Nat.sub_eq_zero_of_le hh, List.drop_zero]
  | cons p ps ih =>
    intro h hh
    have hd : push_position h p = (h ++ [p]).drop ((h.length + 1) - 5) := by
      unfold push_position
      simp [GESTURE_SMOOTHING_WINDOW]
    have hle1 : (List.drop (h.length + 1 - 5) (h ++ [p])).length ≤ 5 := by
      simp only [List.length_drop, List.length_append, List.length_singleton]
      omega
    have hle2 : h.length + 1 - 5 ≤ (h ++ [p]).length := by
      simp only [List.length_append, List.length_singleton]
      omega
    rw [List.foldl_cons, hd]
    rw [ih _ hle1]
    rw [← List.drop_append_of_le_length hle2]
    rw [List.drop_drop]
    rw [List.append_assoc, List.singleton_append]
    congr 1
    simp only [List.length_drop, List.length_append, List.length_singleton,
      List.length_cons, List.length_nil]
    omega

/-- C7: feeding any sequence of (clamped, hence non-negative) positions
through the smoother, the estimate is the component-wise mean, floored,
of the at-most-5 most recent pushes, absent exactly when nothing was
pushed; and the two spec examples with window 5 give (20, 0) and then
(30, 0). -/
theorem C7_smoother_mean (ps : List (Nat × Nat)) :
    (get_smoothed_position (List.foldl push_position [] ps)
        = if ps = [] then none else some (spec_mean (spec_last_window ps)))
    ∧ get_smoothed_position (List.foldl push_position []
        [(0, 0), (10, 0), (20, 0), (30, 0), (40, 0)]) = some (20, 0)
    ∧ get_smoothed_position (List.foldl push_position []
        [(0, 0), (10, 0), (20, 0), (30, 0), (40, 0), (50, 0)]) = some (30, 0) := by
  refine ⟨?_, by decide, by decide⟩
  have h := foldl_push_position ps [] (by simp)
  simp only [List.nil_append, List.length_nil, Nat.zero_add] at h
  rw [h]
  by_cases hps : ps = []
  · subst hps
    simp [get_smoothed_position]
  · rw [if_neg hps]
    have hne : ps.drop (ps.length - 5) ≠ [] := by
      intro hcon
      rw [List.drop_eq_nil_iff] at hcon
      have h0 : ps.length = 0 := by omega
      exact hps (List.eq_nil_of_length_eq_zero h0)
    show get_smoothed_position (ps.drop (ps.length - 5)) = _
    unfold get_smoothed_position
    rw [if_neg hne]
    rfl

/-! ### C2 and C10: reachability invariants -/

theorem goodState_of_fields (g g2 : SnakeGame) (hsn : g2.snake = g.snake)
    (hf : g2.food = g.food) (hsc : g2.score = g.score) (h : GoodState g) :
    GoodState g2 := by
  obtain ⟨h1, h2, h3⟩ := h
  exact ⟨by rw [hf, hsn]; exact h1, by rw [hsn]; exact h2, by rw [hsc, hsn]; exact h3⟩

theorem reachable_goodState (g : SnakeGame) (h : Reachable g) : GoodState g := by
  induction h with
  | reset g0 rand g1 hg =>
    simp only [reset_game] at hg
    split at hg
    · exact absurd hg (by simp)
    · rename_i f hsp
      injection hg with h7
      subst h7
      refine ⟨?_, by simp, by simp [FOOD_POINTS]⟩
      exact spawn_food_not_mem _ _ _ hsp
  | cmd g1 c g2 hr hap ih =>
    obtain ⟨ihf, ihl, ihs⟩ := ih
    cases c with
    | start =>
      injection hap with h7
      obtain ⟨hsc, -, hsn, hf, -, -⟩ := start_game_fields g1
      rw [← h7]
      exact goodState_of_fields g1 _ hsn hf hsc ⟨ihf, ihl, ihs⟩
    | togglePause =>
      injection hap with h7
      obtain ⟨hsc, -, hsn, hf, -, -⟩ := toggle_pause_fields g1
      rw [← h7]
      exact goodState_of_fields g1 _ hsn hf hsc ⟨ihf, ihl, ihs⟩
    | setDir hp =>
      injection hap with h7
      obtain ⟨-, hsc, -, hsn, hf, -⟩ := update_direction_fields g1 (some hp)
      rw [← h7]
      exact goodState_of_fields g1 _ hsn hf hsc ⟨ihf, ihl, ihs⟩
    | step rand =>
      by_cases hst : g1.state = GameState.PLAYING
      · have hap2 : update g1 rand = some g2 := hap
        have hmv := update_some _ _ _ hst hap2
        obtain ⟨-, hcsc, -, hcsn, hcf, -⟩ :=
          commit_direction_fields { g1 with frame_count := g1.frame_count + 1 }
        have e1 : (commit_direction
            { g1 with frame_count := g1.frame_count + 1 }).score = g1.score := hcsc
        have e2 : (commit_direction
            { g1 with frame_count := g1.frame_count + 1 }).snake = g1.snake := hcsn
        have e3 : (commit_direction
            { g1 with frame_count := g1.frame_count + 1 }).food = g1.food := hcf
        rcases move_phase_main _ _ _ hmv with
          ⟨-, -, ⟨-, hsn, hf, hsc, -⟩ | ⟨-, -, ⟨hsc, hlen, hf, himp⟩ | ⟨hsc, hlen, hnot⟩⟩⟩
        · refine ⟨?_, ?_, ?_⟩
          · rw [hf, e3, hsn, e2]; exact ihf
          · rw [hsn, e2]; exact ihl
          · rw [hsc, e1, hsn, e2]; exact ihs
        · refine ⟨?_, ?_, ?_⟩
          · exact himp (by rw [e3, e2]; exact ihf)
          · rw [hlen, e2]; exact ihl
          · rw [hsc, e1, hlen, e2]; exact ihs
        · refine ⟨hnot, ?_, ?_⟩
          · rw [hlen, e2]; omega
          · rw [hsc, e1, hlen, e2]
            have h3 : g1.snake.length + 1 - 3 = (g1.snake.length - 3) + 1 := by omega
            rw [h3, Nat.mul_succ, ihs]
      · have hap2 : update g1 rand = some g2 := hap
        have hg : update g1 rand = some g1 := by simp [update, hst]
        rw [hg] at hap2
        injection hap2 with h7
        rw [← h7]
        exact ⟨ihf, ihl, ihs⟩

/-- C2: in every state reachable from reset via start, togglePause,
setDirectionIntent and step (when every food respawn terminates), the
food cell is not on the snake. -/
theorem C2_food_not_on_snake (g : SnakeGame) (h : Reachable g) :
    g.food ∉ g.snake :=
  (reachable_goodState g h).1

/-- C2 witness: the freshly reset state gI has its food off the snake. -/
theorem C2_witness : gI.food ∉ gI.snake :=
  C2_food_not_on_snake gI (Reachable.reset gA [(0, 0)] gI (by decide))

/-- C10: in every reachable state the score is FOOD_POINTS times the
number of cells grown since reset (snake length minus the 3 spawn
cells), GAME_OVER states included. -/
theorem C10_score_tracks_length (g : SnakeGame) (h : Reachable g) :
    g.score = FOOD_POINTS * (g.snake.length - 3) ∧ 3 ≤ g.snake.length := by
  obtain ⟨-, h2, h3⟩ := reachable_goodState g h
  exact ⟨h3, h2⟩

/-- C10 witness: the invariant holds in the freshly reset state gI. -/
theorem C10_witness :
    gI.score = FOOD_POINTS * (gI.snake.length - 3) ∧ 3 ≤ gI.snake.length :=
  C10_score_tracks_length gI (Reachable.reset gA [(0, 0)] gI (by decide))

/-! ### C4: the straight run off the right edge -/

theorem hseg_succ (x : Int) (n : Nat) :
    hseg x (n + 1) = (x, 15) :: hseg (x - 1) n := by
  unfold hseg
  rw [List.range_succ_eq_map, List.map_cons, List.map_map]
  refine congrArg₂ List.cons (by simp) ?_
  refine List.map_congr_left ?_
  intro i _
  simp only [Function.comp, Prod.mk.injEq]
  refine ⟨?_, trivial⟩
  push_cast
  ring

theorem hseg_dropLast (x : Int) (n : Nat) :
    (hseg x (n + 1)).dropLast = hseg x n := by
  unfold hseg
  rw [List.range_succ, List.map_append]
  simp [List.dropLast_concat]

theorem mem_hseg_fst_le (x : Int) (n : Nat) (p : Cell) (h : p ∈ hseg x n) :
    p.1 ≤ x := by
  unfold hseg at h
  obtain ⟨i, hi, hp⟩ := List.mem_map.mp h
  rw [← hp]
  show x - (i : Int) ≤ x
  omega

theorem commit_direction_right (g : SnakeGame)
    (hdir : g.direction = Direction.RIGHT)
    (hnxt : g.next_direction = Direction.RIGHT) :
    commit_direction g = { g with direction := Direction.RIGHT } := by
  unfold commit_direction
  rw [if_pos (by rw [hnxt, hdir]; decide)]
  rw [hnxt]

theorem step_InvR (k : Nat) (g g2 : SnakeGame) (r : List Cell)
    (hk : k ≤ 18) (hinv : InvR k g) (hstep : update g r = some g2) :
    InvR (k + 1) g2 := by
  obtain ⟨hst, hdir, hnxt, len, hlen3, hlenk, hsnk⟩ := hinv
  have hmv := update_some _ _ _ hst hstep
  have hcm := commit_direction_right
    { g with frame_count := g.frame_count + 1 } hdir hnxt
  rw [hcm] at hmv
  obtain ⟨m, rfl⟩ : ∃ m, len = m + 1 := ⟨len - 1, by omega⟩
  rw [hseg_succ] at hsnk
  have hgc40 : (grid_cols : Int) = 40 := by decide
  have hgr30 : (grid_rows : Int) = 30 := by decide
  simp only [move_phase, hsnk, Direction.value, hgc40, hgr30, add_zero] at hmv
  split at hmv
  · -- wall collision branch is impossible for k ≤ 18
    rename_i hcond
    exfalso
    omega
  · split at hmv
    · -- self collision branch is impossible: the new head is right of all cells
      rename_i hnw hmem
      exfalso
      rcases List.mem_cons.mp hmem with heq | hmem2
      · rw [Prod.mk.injEq] at heq
        omega
      · have := mem_hseg_fst_le _ _ _ hmem2
        simp only at this
        omega
    · split at hmv
      · -- the food is eaten: the snake grows by one at the tail end
        cases hsp : spawn_food ((20 + (k : Int) + 1, 15)
            :: ((20 + (k : Int), 15) :: hseg (20 + (k : Int) - 1) m)) r with
        | none =>
          rw [hsp] at hmv
          exact absurd hmv (by simp)
        | some f =>
          rw [hsp] at hmv
          injection hmv with h7
          rw [← h7]
          refine ⟨hst, rfl, hnxt, m + 2, by omega, by omega, ?_⟩
          show (20 + (k : Int) + 1, 15)
              :: ((20 + (k : Int), 15) :: hseg (20 + (k : Int) - 1) m)
            = hseg (20 + ((k + 1 : Nat) : Int)) (m + 2)
          rw [← hseg_succ]
          rw [show (20 : Int) + ((k + 1 : Nat) : Int) = 20 + (k : Int) + 1 by
            push_cast; ring]
          rw [hseg_succ (20 + (k : Int) + 1) (m + 1)]
          rw [show 20 + (k : Int) + 1 - 1 = 20 + (k : Int) by ring]
      · -- plain move: head advances, tail cell dropped
        injection hmv with h7
        rw [← h7]
        refine ⟨hst, rfl, hnxt, m + 1, by omega, by omega, ?_⟩
        show ((20 + (k : Int) + 1, 15)
            :: ((20 + (k : Int), 15) :: hseg (20 + (k : Int) - 1) m)).dropLast
          = hseg (20 + ((k + 1 : Nat) : Int)) (m + 1)
        rw [← hseg_succ]
        have hfold : (20 + (k : Int) + 1, 15) :: hseg (20 + (k : Int)) (m + 1)
            = hseg (20 + (k : Int) + 1) (m + 2) := by
          rw [hseg_succ (20 + (k : Int) + 1) (m + 1)]
          rw [show 20 + (k : Int) + 1 - 1 = 20 + (k : Int) by ring]
        rw [hfold, hseg_dropLast]
        rw [show (20 : Int) + ((k + 1 : Nat) : Int) = 20 + (k : Int) + 1 by
          push_cast; ring]

theorem step_game_over (g g2 : SnakeGame) (r : List Cell)
    (hinv : InvR 19 g) (hstep : update g r = some g2) :
    g2.state = GameState.GAME_OVER := by
  obtain ⟨hst, hdir, hnxt, len, hlen3, hlenk, hsnk⟩ := hinv
  have hmv := update_some _ _ _ hst hstep
  have hcm := commit_direction_right
    { g with frame_count := g.frame_count + 1 } hdir hnxt
  rw [hcm] at hmv
  obtain ⟨m, rfl⟩ : ∃ m, len = m + 1 := ⟨len - 1, by omega⟩
  rw [hseg_succ] at hsnk
  have hgc40 : (grid_cols : Int) = 40 := by decide
  have hgr30 : (grid_rows : Int) = 30 := by decide
  simp only [move_phase, hsnk, Direction.value, hgc40, hgr30, add_zero] at hmv
  split at hmv
  · injection hmv with h7
    rw [← h7]
    exact (update_high_score_fields _).1
  · -- the wall is in fact hit: head column 39 + 1 = 40
    rename_i hcond
    exfalso
    exact hcond (by omega)

theorem stepN_append (as bs : List (List Cell)) :
    ∀ g : SnakeGame, stepN g (as ++ bs)
      = match stepN g as with
        | none => none
        | some gm => stepN gm bs := by
  induction as with
  | nil => intro g; rfl
  | cons a as ih =>
    intro g
    simp only [List.cons_append, stepN]
    cases update g a with
    | none => rfl
    | some gm => exact ih gm

theorem stepN_InvR (rs : List (List Cell)) :
    ∀ (k : Nat) (g g2 : SnakeGame), InvR k g → k + rs.length ≤ 19 →
      stepN g rs = some g2 → InvR (k + rs.length) g2 := by
  induction rs with
  | nil =>
    intro k g g2 hinv hle h
    simp only [stepN] at h
    injection h with h7
    rw [← h7]
    simpa using hinv
  | cons r rs ih =>
    intro k g g2 hinv hle h
    simp only [stepN] at h
    cases hu : update g r with
    | none => rw [hu] at h; exact absurd h (by simp)
    | some gm =>
      rw [hu] at h
      have h1 := step_InvR k g gm r (by simp at hle; omega) hinv hu
      have h2 := ih (k + 1) gm g2 h1 (by simp at hle ⊢; omega) h
      have he : k + (r :: rs).length = (k + 1) + rs.length := by simp; omega
      rw [he]
      exact h2

/-- C4: from reset (3-cell snake centered, head rightmost at column
grid_cols / 2, facing RIGHT) then start, repeated steps with no
direction intents stay PLAYING for the first grid_cols − startCol − 1
steps and hit GAME_OVER exactly on step grid_cols − startCol. -/
theorem C4_off_right_edge (g0 g1 g2 : SnakeGame) (rand : List Cell)
    (rs : List (List Cell))
    (hreset : reset_game g0 rand = some g1)
    (hrun : stepN (start_game g1) rs = some g2) :
    (rs.length < grid_cols - grid_cols / 2 → g2.state = GameState.PLAYING)
    ∧ (rs.length = grid_cols - grid_cols / 2 → g2.state = GameState.GAME_OVER) := by
  have h20 : grid_cols - grid_cols / 2 = 20 := by decide
  rw [h20]
  have hinv0 : InvR 0 (start_game g1) := by
    simp only [reset_game] at hreset
    split at hreset
    · exact absurd hreset (by simp)
    · rename_i f hsp
      injection hreset with h7
      subst h7
      refine ⟨by simp [start_game], by simp [start_game], by simp [start_game],
        3, by omega, by omega, ?_⟩
      rw [(start_game_fields _).2.2.1]
      show [(((grid_cols / 2 : Nat) : Int), ((grid_rows / 2 : Nat) : Int)),
          (((grid_cols / 2 : Nat) : Int) - 1, ((grid_rows / 2 : Nat) : Int)),
          (((grid_cols / 2 : Nat) : Int) - 2, ((grid_rows / 2 : Nat) : Int))]
        = hseg (20 + ((0 : Nat) : Int)) 3
      decide
  constructor
  · intro hlt
    have h1 := stepN_InvR rs 0 (start_game g1) g2 hinv0 (by omega) hrun
    exact h1.1
  · intro heq
    have hne : rs ≠ [] := by
      intro hcon
      rw [hcon] at heq
      simp at heq
    have hsplit := List.dropLast_append_getLast hne
    rw [← hsplit, stepN_append] at hrun
    have hlen19 : rs.dropLast.length = 19 := by
      rw [List.length_dropLast, heq]
    cases hmid : stepN (start_game g1) rs.dropLast with
    | none => rw [hmid] at hrun; exact absurd hrun (by simp)
    | some gm =>
      rw [hmid] at hrun
      have hinv19 := stepN_InvR rs.dropLast 0 (start_game g1) gm hinv0
        (by rw [hlen19]) hmid
      rw [hlen19] at hinv19
      simp only [stepN] at hrun
      cases hu : update gm (rs.getLast hne) with
      | none => rw [hu] at hrun; exact absurd hrun (by simp)
      | some gx =>
        rw [hu] at hrun
        injection hrun with h7
        rw [← h7]
        exact step_game_over gm gx (rs.getLast hne) (by simpa using hinv19) hu

/-- C4 witness: the concrete 20-step run from the reset-and-started
state ends in GAME_OVER. -/
theorem C4_witness : gF.state = GameState.GAME_OVER :=
  (C4_off_right_edge gA gI gF [(0, 0)] (List.replicate 20 [])
    (by decide) (by decide)).2 (by decide)

end GestureSnake
